import Mathlib

/-!
# prometheus-pusher

A shallow embedding of `prometheus-pusher.go`: configuration loading
(`getConfigFiles`, `parseConfig`), the fetch / push relay (`getMetrics`,
`pushMetrics`, `getAndPush`) and the scheduler loop of `main`.

The program talks to three external libraries.  Each one is represented by what
the program can observe of it:

* the file system (`os.Open`, `Stat`, `Readdir`) by `PathInfo`;
* the TOML library (`toml.LoadFile`, `TableNames`, `Item` accessors) by `Toml` and `Item`;
* the HTTP client (`http.Get`, `ioutil.ReadAll`, `http.Post`) by `Net` and `httpPost`.

`logger.Fatal` ends the process; every function that can reach it returns the
log written up to and including the fatal entry instead of a value.
-/

namespace PrometheusPusher

/-! ## Data model -/

/-- Payload of a fetch or a push, a Go byte slice. -/
abbrev Bytes := List UInt8

/-- Go `time.Duration`: a signed 64-bit number of nanoseconds. -/
abbrev Duration := Int

/-- Two's complement reduction of an integer to the range of `int64`. -/
def wrapInt64 (x : Int) : Int := (x + 2 ^ 63) % 2 ^ 64 - 2 ^ 63

/-- Go multiplication on `int64` (and so on `time.Duration`): the product wraps on overflow. -/
def mulInt64 (a b : Int) : Int := wrapInt64 (a * b)

/-- Go `time.Second`, in nanoseconds. -/
def Second : Duration := 1000000000

/-- Go struct `metricConfig`. -/
structure metricConfig where
  Name : String
  URL : String
deriving DecidableEq

/-- Go struct `pusherConfig`. -/
structure pusherConfig where
  PushGatewayURL : String
  PushInterval : Duration
  Metrics : List metricConfig
deriving DecidableEq

/-! ## Logging -/

/-- Severity of a log entry. -/
inductive Level
| info
| warn
| error
| fatal
deriving DecidableEq

/-- One call of the logger: `logger.Warn(msg, args...)` and so on. -/
structure LogEntry where
  level : Level
  msg : String
  args : List String
deriving DecidableEq

/-! ## The TOML library, as observed by `parseConfig` -/

/-- What `parseConfig` can observe of a `toml.Item`: the results of `IsValue()`,
`String()`, `Int()`, `Integer()` and `Boolean()`. -/
structure Item where
  IsValue : Bool
  asString : String
  asInt : Int
  asInteger : Int
  asBool : Bool
deriving DecidableEq

/-- The zero `Item`, obtained by indexing the map with a key it does not hold. -/
def Item.absent : Item := ⟨false, "", 0, 0, false⟩

/-- A string value. -/
def Item.ofString (s : String) : Item := ⟨true, s, 0, 0, false⟩

/-- An integer value. -/
def Item.ofInt (i : Int) : Item := ⟨true, toString i, i, i, false⟩

/-- A boolean value. -/
def Item.ofBool (b : Bool) : Item := ⟨true, toString b, 0, 0, b⟩

/-- A loaded TOML document: the first result of `TableNames()` and the map from
dotted keys to items. -/
structure Toml where
  TableNames : List String
  items : List (String × Item)
deriving DecidableEq

/-- Map indexing `tomlFile[key]`. -/
def Toml.get (tomlFile : Toml) (key : String) : Item :=
  (tomlFile.items.lookup key).getD Item.absent

/-- Outcome of `os.Open(path)` followed by `Stat()`; for a directory, the entries
returned by `Readdir(-1)` with their name and `Mode().IsRegular()`. -/
inductive PathInfo
| openError (err : String)
| statError (err : String)
| dir (entries : List (String × Bool))
| file
deriving DecidableEq

/-- Go `getConfigFiles`: the files to load, or the fatal log entry. -/
def getConfigFiles (fs : String → PathInfo) (path : String) : Except LogEntry (List String) :=
  match fs path with
  | .openError err => .error ⟨.fatal, "Unable to open configuration file(s)", ["error", err]⟩
  | .statError err => .error ⟨.fatal, "Unable to stat configuration file(s)", ["error", err]⟩
  | .dir entries => .ok ((entries.filter (fun file => file.2)).map (fun file => path ++ "/" ++ file.1))
  | .file => .ok [path]

/-! ## parseConfig -/

/-- Go `%d` applied to an `int`. -/
def fmtD (i : Int) : String :=
  if i < 0 then "-" ++ Nat.repr i.natAbs else Nat.repr i.natAbs

/-- The local variables of a metric section after the `switch` of `parseConfig`
(lines 109-131); `warned` records that the `default` case logged its warning. -/
structure SectionFields where
  host : String
  path : String
  scheme : String
  port : Int
  warned : Bool
deriving DecidableEq

/-- The `switch` over the fields of a metric section: only the first case whose
condition holds is run. -/
def metricFields (tomlFile : Toml) (metric : String) : SectionFields :=
  let init : SectionFields := ⟨"localhost", "/metrics", "http", 0, false⟩
  if (tomlFile.get (metric ++ ".host")).IsValue then
    { init with host := (tomlFile.get (metric ++ ".host")).asString }
  else if (tomlFile.get (metric ++ ".path")).IsValue then
    { init with path := (tomlFile.get (metric ++ ".path")).asString }
  else if (tomlFile.get (metric ++ ".ssl")).IsValue then
    if (tomlFile.get (metric ++ ".ssl")).asBool then { init with scheme := "https" } else init
  else if (tomlFile.get (metric ++ ".port")).IsValue then
    { init with port := (tomlFile.get (metric ++ ".port")).asInteger }
  else
    { init with warned := true }

/-- Go `fmt.Sprintf("%s://%s:%d%s", scheme, host, port, path)`. -/
def sourceURL (f : SectionFields) : String :=
  f.scheme ++ "://" ++ f.host ++ ":" ++ fmtD f.port ++ f.path

/-- State of `parseConfig` inside its loops: the configuration built so far and
the log written so far, oldest entry first. -/
structure ParseState where
  conf : pusherConfig
  log : List LogEntry
deriving DecidableEq

/-- Body of the inner loop of `parseConfig` (lines 93-141) for one table name.
An error result is the log at the point where `logger.Fatal` ended the process. -/
def sectionStep (tomlFile : Toml) (metric : String) (st : ParseState) :
    Except (List LogEntry) ParseState :=
  if metric = "config" then
    if (tomlFile.get "config.pushgateway_url").IsValue then
      .ok { st with conf := { st.conf with
        PushGatewayURL := (tomlFile.get "config.pushgateway_url").asString } }
    else if (tomlFile.get "config.push_interval").IsValue then
      let interval := (tomlFile.get "config.push_interval").asInt
      .ok { st with conf := { st.conf with PushInterval := mulInt64 interval Second } }
    else
      .ok { st with log := st.log ++ [⟨.warn, "Unknown configuration field", ["config_section", metric]⟩] }
  else
    let f := metricFields tomlFile metric
    let log := if f.warned then
        st.log ++ [⟨.warn, "Unknown configuration field", ["config_section", metric]⟩]
      else st.log
    if f.port = 0 then
      .error (log ++ [⟨.fatal, "Port is not defined", ["config_section", metric]⟩])
    else
      .ok ⟨{ st.conf with Metrics := st.conf.Metrics ++ [⟨metric, sourceURL f⟩] }, log⟩

/-- Inner loop of `parseConfig`: `for _, metric := range metrics`. -/
def tablesLoop (tomlFile : Toml) : List String → ParseState → Except (List LogEntry) ParseState
  | [], st => .ok st
  | metric :: rest, st =>
    match sectionStep tomlFile metric st with
    | .error log => .error log
    | .ok st1 => tablesLoop tomlFile rest st1

/-- Result of `parseConfig`: either the process was ended by `logger.Fatal`, or
the function returned a configuration together with an error value (`none` for
`nil`). -/
inductive ParseResult
| fatal (log : List LogEntry)
| returned (conf : pusherConfig) (err : Option String) (log : List LogEntry)
deriving DecidableEq

/-- Outer loop of `parseConfig`: `for _, file := range getConfigFiles(path)`. -/
def filesLoop (LoadFile : String → Except String Toml) : List String → ParseState → ParseResult
  | [], st => .returned st.conf none st.log
  | file :: rest, st =>
    match LoadFile file with
    | .error err => .returned st.conf (some err) st.log
    | .ok tomlFile =>
      match tablesLoop tomlFile tomlFile.TableNames st with
      | .error log => .fatal log
      | .ok st1 => filesLoop LoadFile rest st1

/-- The configuration `parseConfig` starts from (lines 78-82); `60 * time.Second`
is a constant expression, evaluated exactly. -/
def defaultConf : pusherConfig :=
  { PushGatewayURL := "http://localhost:9091"
    PushInterval := 60 * Second
    Metrics := [] }

/-- Go `parseConfig`. -/
def parseConfig (fs : String → PathInfo) (LoadFile : String → Except String Toml)
    (path : String) : ParseResult :=
  match getConfigFiles fs path with
  | .error entry => .fatal [entry]
  | .ok files => filesLoop LoadFile files ⟨defaultConf, []⟩

/-! ## The HTTP client, as observed by the relay -/

/-- What one call of `http.Post` did on the network: the targets of the POST
requests it wrote, in order (none when it failed before writing, several when a
redirect repeats the request), and the error it returned (`none` for `nil`). -/
structure PostOutcome where
  targets : List String
  err : Option String
deriving DecidableEq

/-- The network seen by one relay task.  `Get url` is the error of `http.Get`,
or, for a response, the pair `(body, err)` that `ioutil.ReadAll` returns on its
body (`none` is the `nil` slice, respectively the `nil` error).  `Post` is what
`http.Post` does with a URL it has accepted. -/
structure Net where
  Get : String → Except String (Option Bytes × Option String)
  Post : String → String → Bytes → PostOutcome

/-- What a relay task does, in program order: its log entries, its calls of
`http.Get` and `http.Post` with their arguments, the POST requests that
`http.Post` writes to the network, and the closing of a response body. -/
inductive Event
| log (entry : LogEntry)
| httpGet (url : String)
| httpPost (url : String) (contentType : String) (body : Bytes)
| postRequest (target : String) (contentType : String) (body : Bytes)
| bodyClose
deriving DecidableEq

/-- Go `getMetrics`: the returned slice (`none` for `nil`) and the events. -/
def getMetrics (net : Net) (metricURL : String) : Option Bytes × List Event :=
  let start := [Event.log ⟨.info, "Getting Node Exporter metrics", ["url", metricURL]⟩,
    Event.httpGet metricURL]
  match net.Get metricURL with
  | .error err => (none, start ++ [Event.log ⟨.error, err, ["error", err]⟩])
  | .ok (_, some err) => (none, start ++ [Event.log ⟨.error, err, ["error", err]⟩, Event.bodyClose])
  | .ok (body, none) => (body, start ++ [Event.bodyClose])

/-- Go `ishex` of `net/url`. -/
def ishex (c : Char) : Bool :=
  ('0' ≤ c ∧ c ≤ '9') ∨ ('a' ≤ c ∧ c ≤ 'f') ∨ ('A' ≤ c ∧ c ≤ 'F')

/-- The validation pass of Go `unescape` in `net/url`: some percent sign is not
followed by two hexadecimal digits. -/
def badEscape : List Char → Bool
  | [] => false
  | c :: rest =>
    if c = '%' then
      match rest with
      | a :: b :: rest2 => if ishex a && ishex b then badEscape rest2 else true
      | _ => true
    else badEscape rest

/-- Go `http.Post(url, contentType, body)` as the relay observes it: the error
returned and the POST requests written.  `http.Post` first parses the URL.  When
the URL has no question mark, every part of it goes through `unescape`, so an
invalid percent escape makes `url.Parse` fail (or leaves a URL without host):
`http.Post` returns an error and writes no request.  On every other URL the
outcome is that of the network; a request that is written carries the content
type and the body handed to `http.Post`. -/
def httpPost (net : Net) (url contentType : String) (body : Bytes) : Option String × List Event :=
  if '?' ∉ url.data ∧ badEscape url.data = true then
    (some "invalid URL escape", [])
  else
    ((net.Post url contentType body).err,
      (net.Post url contentType body).targets.map
        (fun target => Event.postRequest target contentType body))

/-- Go `fmt.Sprintf("%s/metrics/job/%s/instance/%s", pushgatewayURL, metricName, instance)`. -/
def postURL (metricName pushgatewayURL instanceName : String) : String :=
  pushgatewayURL ++ "/metrics/job/" ++ metricName ++ "/instance/" ++ instanceName

/-- Go `pushMetrics`: the events of one push. -/
def pushMetrics (net : Net) (metricName pushgatewayURL instanceName : String) (metrics : Bytes) :
    List Event :=
  let start := [Event.log ⟨.info, "Pushing Node exporter metrics",
      ["endpoint", postURL metricName pushgatewayURL instanceName]⟩,
    Event.httpPost (postURL metricName pushgatewayURL instanceName) "text/plain" metrics]
  match httpPost net (postURL metricName pushgatewayURL instanceName) "text/plain" metrics with
  | (some err, wire) => start ++ wire ++ [Event.log ⟨.error, err, ["error", err]⟩]
  | (none, wire) => start ++ wire ++ [Event.bodyClose]

/-- Go `getAndPush`: the events of one relay task. -/
def getAndPush (net : Net) (metricName metricURL pushgatewayURL instanceName : String) : List Event :=
  match getMetrics net metricURL with
  | (some metrics, events) => events ++ pushMetrics net metricName pushgatewayURL instanceName metrics
  | (none, events) => events

/-- The calls of `http.Post` among a list of events: URL argument, content type
and body. -/
def postCalls : List Event → List (String × String × Bytes)
  | [] => []
  | Event.httpPost url contentType body :: rest => (url, contentType, body) :: postCalls rest
  | _ :: rest => postCalls rest

/-- The POST requests written to the network among a list of events: target,
content type and body. -/
def postRequests : List Event → List (String × String × Bytes)
  | [] => []
  | Event.postRequest target contentType body :: rest =>
    (target, contentType, body) :: postRequests rest
  | _ :: rest => postRequests rest

/-! ## The scheduler loop of `main` -/

/-- The arguments of one `go getAndPush(...)` statement. -/
structure Task where
  metricName : String
  metricURL : String
  pushgatewayURL : String
  instanceName : String
deriving DecidableEq

/-- Body of the tick loop (lines 45-47): one task is started per metric, in
order; each started task is paired with the events it produces on the network
it meets (`net i` for the task started at position `i` of this tick). -/
def tickBody (net : Nat → Net) (pusher : pusherConfig) (hostname : String) :
    List metricConfig → Nat → List (Task × List Event)
  | [], _ => []
  | metric :: rest, i =>
    (⟨metric.Name, metric.URL, pusher.PushGatewayURL, hostname⟩,
      getAndPush (net i) metric.Name metric.URL pusher.PushGatewayURL hostname)
    :: tickBody net pusher hostname rest (i + 1)

/-- The loop `for _ = range time.Tick(pusher.PushInterval)` after `ticks` values
have been received from the channel: the tasks started so far, oldest first.
`nets t i` is the network met by the task started at position `i` of tick `t`. -/
def schedulerLoop (nets : Nat → Nat → Net) (pusher : pusherConfig) (hostname : String) :
    Nat → List (Task × List Event)
  | 0 => []
  | t + 1 => schedulerLoop nets pusher hostname t
      ++ tickBody (nets t) pusher hostname pusher.Metrics 0

/-- A run of `main` observed until `ticks` ticks have been received. -/
inductive MainRun
| terminated (log : List LogEntry)
| looping (log : List LogEntry) (started : List (Task × List Event))
deriving DecidableEq

/-- Go `main`, with the flag value `path` and the result `hostname` of
`fqdn.Get()`: when `parseConfig` ends in `logger.Fatal` the process stops before
the loop, otherwise the loop runs on the returned configuration. -/
def main (fs : String → PathInfo) (LoadFile : String → Except String Toml) (path : String)
    (hostname : String) (nets : Nat → Nat → Net) (ticks : Nat) : MainRun :=
  match parseConfig fs LoadFile path with
  | .fatal log => .terminated log
  | .returned pusher err log =>
    let log1 := match err with
      | some e => log ++ [⟨.error, "Error parsing configuration", [e]⟩]
      | none => log
    .looping (log1 ++ [⟨.info, "Starting prometheus-pusher", ["instance_name", hostname]⟩])
      (schedulerLoop nets pusher hostname ticks)

/-! ## Vocabulary of the statements -/

/-- The files `parseConfig` loads: those before the first load error. -/
def loadedFiles (LoadFile : String → Except String Toml) : List String → List Toml
  | [] => []
  | file :: rest =>
    match LoadFile file with
    | .error _ => []
    | .ok tomlFile => tomlFile :: loadedFiles LoadFile rest

/-- The files named by the configuration path, none when `getConfigFiles` is fatal. -/
def configFiles (fs : String → PathInfo) (path : String) : List String :=
  match getConfigFiles fs path with
  | .ok files => files
  | .error _ => []

/-- The documents `parseConfig` loads for a configuration path. -/
def loaded (fs : String → PathInfo) (LoadFile : String → Except String Toml)
    (path : String) : List Toml :=
  loadedFiles LoadFile (configFiles fs path)

/-- The metric sections of a document: its table names other than `config`. -/
def metricSections (tomlFile : Toml) : List String :=
  tomlFile.TableNames.filter (fun metric => metric ≠ "config")

/-- The metric source `parseConfig` appends for a metric section it accepts. -/
def sectionSource (tomlFile : Toml) (metric : String) : metricConfig :=
  ⟨metric, sourceURL (metricFields tomlFile metric)⟩

/-- The metric sources of a document, in the order of its table names. -/
def fileSources (tomlFile : Toml) : List metricConfig :=
  (metricSections tomlFile).map (sectionSource tomlFile)

/-- The task started for a metric source. -/
def taskOf (pusher : pusherConfig) (hostname : String) (metric : metricConfig) : Task :=
  ⟨metric.Name, metric.URL, pusher.PushGatewayURL, hostname⟩

/-- The value a document makes `parseConfig` store in `PushGatewayURL`, if any. -/
def gatewayRead (tomlFile : Toml) : Option String :=
  if "config" ∈ tomlFile.TableNames ∧ (tomlFile.get "config.pushgateway_url").IsValue = true then
    some (tomlFile.get "config.pushgateway_url").asString
  else none

/-- The `push_interval` a document makes `parseConfig` read, if any. -/
def intervalRead (tomlFile : Toml) : Option Int :=
  if "config" ∈ tomlFile.TableNames ∧ (tomlFile.get "config.pushgateway_url").IsValue = false
      ∧ (tomlFile.get "config.push_interval").IsValue = true then
    some (tomlFile.get "config.push_interval").asInt
  else none

/-- The last `push_interval` read over a list of documents, if any. -/
def lastIntervalRead : List Toml → Option Int
  | [] => none
  | tomlFile :: rest =>
    match lastIntervalRead rest with
    | some n => some n
    | none => intervalRead tomlFile

/-- The last gateway URL read over a list of documents, if any. -/
def lastGatewayRead : List Toml → Option String
  | [] => none
  | tomlFile :: rest =>
    match lastGatewayRead rest with
    | some u => some u
    | none => gatewayRead tomlFile

/-! ## Sample inputs -/

/-- A file system in which `path` is a regular file. -/
def fsFile : String → PathInfo := fun _ => .file

/-- A file system in which every path is a directory holding `a.toml` and `b.toml`. -/
def fsTwo : String → PathInfo := fun _ => .dir [("a.toml", true), ("b.toml", true)]

/-- The document `{config: {push_interval: 5}, node: {port: 9100}}`. -/
def tomlNode : Toml :=
  { TableNames := ["config", "node"]
    items := [("config.push_interval", Item.ofInt 5), ("node.port", Item.ofInt 9100)] }

/-- A metric section that defines a host next to its port. -/
def tomlHostPort : Toml :=
  { TableNames := ["node"]
    items := [("node.host", Item.ofString "example.com"), ("node.port", Item.ofInt 9100)] }

/-- A metric section without a port. -/
def tomlNoPort : Toml :=
  { TableNames := ["node"], items := [] }

/-- A `config` section whose `push_interval`, in nanoseconds, exceeds `int64`. -/
def tomlHugeInterval : Toml :=
  { TableNames := ["config", "node"]
    items := [("config.push_interval", Item.ofInt 9223372037), ("node.port", Item.ofInt 9100)] }

/-- A `config` section that sets the gateway URL to `url`. -/
def tomlGateway (url : String) : Toml :=
  { TableNames := ["config"], items := [("config.pushgateway_url", Item.ofString url)] }

/-- A `config` section that sets the push interval to `n`. -/
def tomlInterval (n : Int) : Toml :=
  { TableNames := ["config"], items := [("config.push_interval", Item.ofInt n)] }

/-- Loader that answers every path with the same document. -/
def loadConst (tomlFile : Toml) : String → Except String Toml := fun _ => .ok tomlFile

/-- Loader for the directory of `fsTwo` under `conf.d`. -/
def loadTwo (first second : Toml) : String → Except String Toml := fun file =>
  if file = "conf.d/a.toml" then .ok first
  else if file = "conf.d/b.toml" then .ok second
  else .error "no such file"

/-- A network on which the source answers with `body` and the gateway accepts:
every POST it is asked to carry leaves once, with the URL as target. -/
def netOk (body : Bytes) : Net :=
  { Get := fun _ => .ok (some body, none), Post := fun url _ _ => ⟨[url], none⟩ }

/-- A network on which the source cannot be reached. -/
def netDown : Net :=
  { Get := fun _ => .error "connection refused"
    Post := fun _ _ _ => ⟨[], some "connection refused"⟩ }

/-- A network on which reading the response body fails half way. -/
def netReadError : Net :=
  { Get := fun _ => .ok (some [117, 112], some "unexpected EOF")
    Post := fun url _ _ => ⟨[url], none⟩ }

/-- The bytes of the payload `up 1` followed by a newline. -/
def payloadUp : Bytes := [117, 112, 32, 49, 10]

/-- A configuration with two metric sources. -/
def pusherTwo : pusherConfig :=
  { PushGatewayURL := "http://gw:9091"
    PushInterval := 5 * Second
    Metrics := [⟨"node", "http://localhost:9100/metrics"⟩, ⟨"app", "http://localhost:8080/metrics"⟩] }

/-! ## Lemmas -/

/-- The `switch` leaves a non-zero port only through its `port` case: no `host`,
`path` or `ssl` is defined and the other variables keep their defaults. -/
theorem metricFields_of_port_ne_zero (tomlFile : Toml) (metric : String)
    (h : (metricFields tomlFile metric).port ≠ 0) :
    (tomlFile.get (metric ++ ".host")).IsValue = false ∧
    (tomlFile.get (metric ++ ".path")).IsValue = false ∧
    (tomlFile.get (metric ++ ".ssl")).IsValue = false ∧
    (tomlFile.get (metric ++ ".port")).IsValue = true ∧
    metricFields tomlFile metric =
      ⟨"localhost", "/metrics", "http", (tomlFile.get (metric ++ ".port")).asInteger, false⟩ := by
  unfold metricFields at h ⊢
  cases hh : (tomlFile.get (metric ++ ".host")).IsValue <;>
  cases hp : (tomlFile.get (metric ++ ".path")).IsValue <;>
  cases hs : (tomlFile.get (metric ++ ".ssl")).IsValue <;>
  cases hq : (tomlFile.get (metric ++ ".port")).IsValue <;>
  cases hb : (tomlFile.get (metric ++ ".ssl")).asBool <;>
  simp [hh, hp, hs, hq, hb] at h ⊢

/-- Without a `port` field the port variable stays 0. -/
theorem metricFields_port_eq_zero_of_absent (tomlFile : Toml) (metric : String)
    (h : (tomlFile.get (metric ++ ".port")).IsValue = false) :
    (metricFields tomlFile metric).port = 0 := by
  by_contra hne
  have := (metricFields_of_port_ne_zero tomlFile metric hne).2.2.2.1
  rw [h] at this
  exact Bool.noConfusion this

/-- The URL built from the default scheme, host and path. -/
theorem sourceURL_default (p : Int) :
    sourceURL ⟨"localhost", "/metrics", "http", p, false⟩
      = "http://localhost:" ++ fmtD p ++ "/metrics" := by
  have h : ("http" ++ "://" ++ "localhost" ++ ":" : String) = "http://localhost:" := by decide
  simp only [sourceURL, h]

/-- In this range the product with `time.Second` does not overflow. -/
theorem mulInt64_second (n : Int) (hlo : -9223372036 ≤ n) (hhi : n ≤ 9223372036) :
    mulInt64 n Second = n * Second := by
  unfold mulInt64 wrapInt64 Second
  have h : (n * 1000000000 + 2 ^ 63) % 2 ^ 64 = n * 1000000000 + 2 ^ 63 := by
    apply Int.emod_eq_of_lt <;> omega
  omega

/-- The `config` section never ends the process; it changes at most the gateway URL or the interval. -/
theorem sectionStep_config (tomlFile : Toml) (st : ParseState) :
    ∃ st1, sectionStep tomlFile "config" st = .ok st1 ∧
      st1.conf.Metrics = st.conf.Metrics ∧
      st1.conf.PushGatewayURL =
        (if (tomlFile.get "config.pushgateway_url").IsValue = true then
          (tomlFile.get "config.pushgateway_url").asString else st.conf.PushGatewayURL) ∧
      st1.conf.PushInterval =
        (if (tomlFile.get "config.pushgateway_url").IsValue = false ∧
            (tomlFile.get "config.push_interval").IsValue = true then
          mulInt64 (tomlFile.get "config.push_interval").asInt Second
        else st.conf.PushInterval) := by
  unfold sectionStep
  cases hu : (tomlFile.get "config.pushgateway_url").IsValue <;>
  cases hi : (tomlFile.get "config.push_interval").IsValue <;>
  simp [hu, hi]

/-- A metric section whose port variable is non-zero appends its source. -/
theorem sectionStep_metric (tomlFile : Toml) (metric : String) (st : ParseState)
    (hc : metric ≠ "config") (hp : (metricFields tomlFile metric).port ≠ 0) :
    sectionStep tomlFile metric st =
      .ok ⟨{ st.conf with Metrics := st.conf.Metrics ++ [sectionSource tomlFile metric] }, st.log⟩ := by
  have hw : (metricFields tomlFile metric).warned = false := by
    rw [(metricFields_of_port_ne_zero tomlFile metric hp).2.2.2.2]
  unfold sectionStep
  simp [hc, hp, hw, sectionSource]

/-- A metric section whose port variable is 0 ends the process. -/
theorem sectionStep_metric_fatal (tomlFile : Toml) (metric : String) (st : ParseState)
    (hc : metric ≠ "config") (hp : (metricFields tomlFile metric).port = 0) :
    ∃ log, sectionStep tomlFile metric st = .error log := by
  unfold sectionStep
  simp [hc, hp]

/-- What the inner loop has done to the configuration when it completes. -/
theorem tablesLoop_ok (tomlFile : Toml) (names : List String) :
    ∀ (st st1 : ParseState), tablesLoop tomlFile names st = .ok st1 →
      st1.conf.Metrics = st.conf.Metrics
        ++ (names.filter (fun metric => metric ≠ "config")).map (sectionSource tomlFile) ∧
      (∀ metric ∈ names, metric ≠ "config" → (metricFields tomlFile metric).port ≠ 0) ∧
      st1.conf.PushGatewayURL =
        (if "config" ∈ names ∧ (tomlFile.get "config.pushgateway_url").IsValue = true then
          (tomlFile.get "config.pushgateway_url").asString else st.conf.PushGatewayURL) ∧
      st1.conf.PushInterval =
        (if "config" ∈ names ∧ (tomlFile.get "config.pushgateway_url").IsValue = false ∧
            (tomlFile.get "config.push_interval").IsValue = true then
          mulInt64 (tomlFile.get "config.push_interval").asInt Second
        else st.conf.PushInterval) := by
  induction names with
  | nil =>
    intro st st1 h
    simp only [tablesLoop, Except.ok.injEq] at h
    subst h
    simp
  | cons metric rest ih =>
    intro st st1 h
    by_cases hc : metric = "config"
    · subst hc
      obtain ⟨st2, h2, hm, hu, hi⟩ := sectionStep_config tomlFile st
      simp only [tablesLoop, h2] at h
      obtain ⟨ihm, ihp, ihu, ihi⟩ := ih st2 st1 h
      refine ⟨?_, ?_, ?_, ?_⟩
      · simp [ihm, hm]
      · intro m hmem hne
        rcases List.mem_cons.1 hmem with rfl | hmem
        · exact absurd rfl hne
        · exact ihp m hmem hne
      · rw [ihu, hu]
        cases hv : (tomlFile.get "config.pushgateway_url").IsValue <;> simp
      · rw [ihi, hi]
        cases hv : (tomlFile.get "config.pushgateway_url").IsValue <;>
        cases hw : (tomlFile.get "config.push_interval").IsValue <;> simp
    · by_cases hp : (metricFields tomlFile metric).port = 0
      · obtain ⟨log, hl⟩ := sectionStep_metric_fatal tomlFile metric st hc hp
        simp [tablesLoop, hl] at h
      · have h2 := sectionStep_metric tomlFile metric st hc hp
        simp only [tablesLoop, h2] at h
        obtain ⟨ihm, ihp, ihu, ihi⟩ := ih _ st1 h
        have hc2 : ¬ "config" = metric := fun e => hc e.symm
        refine ⟨?_, ?_, ?_, ?_⟩
        · simp [ihm, hc]
        · intro m hmem hne
          rcases List.mem_cons.1 hmem with rfl | hmem
          · exact hp
          · exact ihp m hmem hne
        · rw [ihu]; simp [hc2]
        · rw [ihi]; simp [hc2]

/-- What the outer loop has done to the configuration when `parseConfig` returns. -/
theorem filesLoop_returned (LoadFile : String → Except String Toml) (files : List String) :
    ∀ (st : ParseState) (conf : pusherConfig) (err : Option String) (log : List LogEntry),
      filesLoop LoadFile files st = .returned conf err log →
      conf.Metrics = st.conf.Metrics ++ (loadedFiles LoadFile files).flatMap fileSources ∧
      (∀ f ∈ loadedFiles LoadFile files, ∀ metric ∈ metricSections f,
        (metricFields f metric).port ≠ 0) ∧
      conf.PushGatewayURL =
        (lastGatewayRead (loadedFiles LoadFile files)).getD st.conf.PushGatewayURL ∧
      conf.PushInterval =
        (match lastIntervalRead (loadedFiles LoadFile files) with
          | some n => mulInt64 n Second
          | none => st.conf.PushInterval) := by
  induction files with
  | nil =>
    intro st conf err log h
    simp only [filesLoop, ParseResult.returned.injEq] at h
    obtain ⟨rfl, -, -⟩ := h
    simp [loadedFiles, lastGatewayRead, lastIntervalRead]
  | cons file rest ih =>
    intro st conf err log h
    cases hl : LoadFile file with
    | error e =>
      simp only [filesLoop, hl, ParseResult.returned.injEq] at h
      obtain ⟨rfl, -, -⟩ := h
      simp [loadedFiles, hl, lastGatewayRead, lastIntervalRead]
    | ok tomlFile =>
      cases ht : tablesLoop tomlFile tomlFile.TableNames st with
      | error l => simp [filesLoop, hl, ht] at h
      | ok st1 =>
        simp only [filesLoop, hl, ht] at h
        obtain ⟨ihm, ihp, ihu, ihi⟩ := ih st1 conf err log h
        obtain ⟨tm, tp, tu, ti⟩ := tablesLoop_ok tomlFile tomlFile.TableNames st st1 ht
        refine ⟨?_, ?_, ?_, ?_⟩
        · simp [loadedFiles, hl, ihm, tm, fileSources, metricSections]
        · intro f hf metric hmem
          simp only [loadedFiles, hl, List.mem_cons] at hf
          rcases hf with rfl | hf
          · simp only [metricSections, List.mem_filter, decide_eq_true_eq] at hmem
            exact tp metric hmem.1 hmem.2
          · exact ihp f hf metric hmem
        · rw [ihu, tu]
          simp only [loadedFiles, hl, lastGatewayRead]
          cases hr : lastGatewayRead (loadedFiles LoadFile rest) with
          | some u => simp
          | none =>
            simp only [Option.getD_none, gatewayRead]
            by_cases hcond : "config" ∈ tomlFile.TableNames ∧
                (tomlFile.get "config.pushgateway_url").IsValue = true <;> simp [hcond]
        · rw [ihi, ti]
          simp only [loadedFiles, hl, lastIntervalRead]
          cases hr : lastIntervalRead (loadedFiles LoadFile rest) with
          | some n => simp
          | none =>
            simp only [intervalRead]
            by_cases hcond : "config" ∈ tomlFile.TableNames ∧
                (tomlFile.get "config.pushgateway_url").IsValue = false ∧
                (tomlFile.get "config.push_interval").IsValue = true <;> simp [hcond]

/-- The configuration returned by `parseConfig` in terms of the loaded documents. -/
theorem parseConfig_returned (fs : String → PathInfo) (LoadFile : String → Except String Toml)
    (path : String) (conf : pusherConfig) (err : Option String) (log : List LogEntry)
    (h : parseConfig fs LoadFile path = .returned conf err log) :
    conf.Metrics = (loaded fs LoadFile path).flatMap fileSources ∧
    (∀ f ∈ loaded fs LoadFile path, ∀ metric ∈ metricSections f,
      (metricFields f metric).port ≠ 0) ∧
    conf.PushGatewayURL =
      (lastGatewayRead (loaded fs LoadFile path)).getD "http://localhost:9091" ∧
    conf.PushInterval =
      (match lastIntervalRead (loaded fs LoadFile path) with
        | some n => mulInt64 n Second
        | none => 60 * Second) := by
  unfold parseConfig at h
  cases hg : getConfigFiles fs path with
  | error e => simp [hg] at h
  | ok files =>
    simp only [hg] at h
    have := filesLoop_returned LoadFile files _ conf err log h
    simpa [loaded, configFiles, hg, defaultConf] using this

/-- The two ways `parseConfig` ends. -/
theorem parseConfig_cases (fs : String → PathInfo) (LoadFile : String → Except String Toml)
    (path : String) :
    (∃ log, parseConfig fs LoadFile path = .fatal log) ∨
    (∃ conf err log, parseConfig fs LoadFile path = .returned conf err log) := by
  cases h : parseConfig fs LoadFile path with
  | fatal log => exact Or.inl ⟨log, rfl⟩
  | returned conf err log => exact Or.inr ⟨conf, err, log, rfl⟩

/-- A metric section of a loaded file whose port variable is 0 makes `parseConfig` fatal. -/
theorem parseConfig_fatal_of_port_zero (fs : String → PathInfo)
    (LoadFile : String → Except String Toml) (path : String) (tomlFile : Toml) (metric : String)
    (hf : tomlFile ∈ loaded fs LoadFile path) (hm : metric ∈ metricSections tomlFile)
    (hp : (metricFields tomlFile metric).port = 0) :
    ∃ log, parseConfig fs LoadFile path = .fatal log := by
  rcases parseConfig_cases fs LoadFile path with h | ⟨conf, err, log, h⟩
  · exact h
  · exact absurd hp ((parseConfig_returned fs LoadFile path conf err log h).2.1 tomlFile hf metric hm)

/-- Membership in the metric sections of a document. -/
theorem mem_metricSections (tomlFile : Toml) (metric : String) :
    metric ∈ metricSections tomlFile ↔ metric ∈ tomlFile.TableNames ∧ metric ≠ "config" := by
  simp [metricSections]

/-- The tasks started in one tick. -/
theorem tickBody_tasks (net : Nat → Net) (pusher : pusherConfig) (hostname : String)
    (metrics : List metricConfig) :
    ∀ i, (tickBody net pusher hostname metrics i).map Prod.fst
      = metrics.map (taskOf pusher hostname) := by
  induction metrics with
  | nil => intro i; rfl
  | cons metric rest ih => intro i; simp [tickBody, taskOf, ih]

/-- Each task started in one tick runs `getAndPush` on its arguments. -/
theorem tickBody_events (net : Nat → Net) (pusher : pusherConfig) (hostname : String)
    (metrics : List metricConfig) :
    ∀ i, ∀ e ∈ tickBody net pusher hostname metrics i, ∃ n,
      e.2 = getAndPush n e.1.metricName e.1.metricURL e.1.pushgatewayURL e.1.instanceName := by
  induction metrics with
  | nil => intro i e he; simp [tickBody] at he
  | cons metric rest ih =>
    intro i e he
    simp only [tickBody, List.mem_cons] at he
    rcases he with rfl | he
    · exact ⟨net i, rfl⟩
    · exact ih (i + 1) e he

/-- The tasks started after a number of ticks. -/
theorem schedulerLoop_map_fst (nets : Nat → Nat → Net) (pusher : pusherConfig)
    (hostname : String) (ticks : Nat) :
    (schedulerLoop nets pusher hostname ticks).map Prod.fst
      = (List.replicate ticks (pusher.Metrics.map (taskOf pusher hostname))).flatten := by
  induction ticks with
  | zero => rfl
  | succ t ih =>
    simp [schedulerLoop, ih, tickBody_tasks, List.replicate_succ']

/-- The calls of `http.Post` in a concatenation of event lists. -/
theorem postCalls_append (xs ys : List Event) :
    postCalls (xs ++ ys) = postCalls xs ++ postCalls ys := by
  induction xs with
  | nil => rfl
  | cons x rest ih => cases x <;> simp [postCalls, ih]

/-- The POST requests in a concatenation of event lists. -/
theorem postRequests_append (xs ys : List Event) :
    postRequests (xs ++ ys) = postRequests xs ++ postRequests ys := by
  induction xs with
  | nil => rfl
  | cons x rest ih => cases x <;> simp [postRequests, ih]

/-- A fetch makes no call of `http.Post`. -/
theorem postCalls_getMetrics (net : Net) (metricURL : String) :
    postCalls (getMetrics net metricURL).2 = [] := by
  unfold getMetrics
  cases h : net.Get metricURL with
  | error err => simp [postCalls]
  | ok r =>
    obtain ⟨body, e⟩ := r
    cases e <;> simp [postCalls]

/-- A fetch writes no POST request. -/
theorem postRequests_getMetrics (net : Net) (metricURL : String) :
    postRequests (getMetrics net metricURL).2 = [] := by
  unfold getMetrics
  cases h : net.Get metricURL with
  | error err => simp [postRequests]
  | ok r =>
    obtain ⟨body, e⟩ := r
    cases e <;> simp [postRequests]

/-- Requests on the network are not calls of `http.Post`. -/
theorem postCalls_wire (targets : List String) (contentType : String) (body : Bytes) :
    postCalls (targets.map (fun target => Event.postRequest target contentType body)) = [] := by
  induction targets with
  | nil => rfl
  | cons t rest ih => simp [postCalls, ih]

/-- The POST requests among the requests written for one call. -/
theorem postRequests_wire (targets : List String) (contentType : String) (body : Bytes) :
    postRequests (targets.map (fun target => Event.postRequest target contentType body))
      = targets.map (fun target => (target, contentType, body)) := by
  induction targets with
  | nil => rfl
  | cons t rest ih => simp [postRequests, ih]

/-- The network events of `http.Post` hold no call of `http.Post`. -/
theorem postCalls_httpPost (net : Net) (url contentType : String) (body : Bytes) :
    postCalls (httpPost net url contentType body).2 = [] := by
  unfold httpPost
  split
  · rfl
  · exact postCalls_wire _ _ _

/-- The events of `pushMetrics`: the log entry, the call, what `http.Post` writes,
and a last event that is neither a call nor a request. -/
theorem pushMetrics_eq (net : Net) (metricName pushgatewayURL instanceName : String)
    (metrics : Bytes) :
    ∃ last, postCalls [last] = [] ∧ postRequests [last] = [] ∧
      pushMetrics net metricName pushgatewayURL instanceName metrics =
        [Event.log ⟨.info, "Pushing Node exporter metrics",
            ["endpoint", postURL metricName pushgatewayURL instanceName]⟩,
          Event.httpPost (postURL metricName pushgatewayURL instanceName) "text/plain" metrics]
        ++ (httpPost net (postURL metricName pushgatewayURL instanceName) "text/plain" metrics).2
        ++ [last] := by
  unfold pushMetrics
  rcases h : httpPost net (postURL metricName pushgatewayURL instanceName) "text/plain" metrics
    with ⟨err, wire⟩
  cases err with
  | some e => exact ⟨Event.log ⟨.error, e, ["error", e]⟩, rfl, rfl, rfl⟩
  | none => exact ⟨Event.bodyClose, rfl, rfl, rfl⟩

/-- The calls of `http.Post` in one push. -/
theorem postCalls_pushMetrics (net : Net) (metricName pushgatewayURL instanceName : String)
    (metrics : Bytes) :
    postCalls (pushMetrics net metricName pushgatewayURL instanceName metrics)
      = [(postURL metricName pushgatewayURL instanceName, "text/plain", metrics)] := by
  obtain ⟨last, hc, -, h⟩ := pushMetrics_eq net metricName pushgatewayURL instanceName metrics
  rw [h, postCalls_append, postCalls_append, hc, postCalls_httpPost]
  rfl

/-- The POST requests of one push are those of its call of `http.Post`. -/
theorem postRequests_pushMetrics (net : Net) (metricName pushgatewayURL instanceName : String)
    (metrics : Bytes) :
    postRequests (pushMetrics net metricName pushgatewayURL instanceName metrics)
      = postRequests
          (httpPost net (postURL metricName pushgatewayURL instanceName) "text/plain" metrics).2 := by
  obtain ⟨last, -, hr, h⟩ := pushMetrics_eq net metricName pushgatewayURL instanceName metrics
  rw [h, postRequests_append, postRequests_append, hr]
  simp [postRequests]

/-- The events of `getAndPush` in terms of the result of `getMetrics`. -/
theorem getAndPush_eq (net : Net) (metricName metricURL pushgatewayURL instanceName : String) :
    getAndPush net metricName metricURL pushgatewayURL instanceName =
      match (getMetrics net metricURL).1 with
      | some metrics => (getMetrics net metricURL).2
          ++ pushMetrics net metricName pushgatewayURL instanceName metrics
      | none => (getMetrics net metricURL).2 := by
  unfold getAndPush
  rcases hg : getMetrics net metricURL with ⟨r, events⟩
  cases r <;> simp

/-- C1 (counterexample): for the metric name `a%zz` the concatenated URL has an
invalid percent escape; `http.Post` returns the parse error and no POST request
leaves, on a network whose gateway accepts every request. -/
theorem pushMetrics_bad_escape_no_post :
    postURL "a%zz" "http://gw:9091" "host-1"
      = "http://gw:9091/metrics/job/a%zz/instance/host-1" ∧
    postRequests (pushMetrics (netOk payloadUp) "a%zz" "http://gw:9091" "host-1" payloadUp)
      = [] ∧
    postRequests (pushMetrics (netOk payloadUp) "a%zz" "http://gw:9091" "host-1" payloadUp)
      ≠ [("http://gw:9091/metrics/job/a%zz/instance/host-1", "text/plain", payloadUp)] := by
  decide

/-- C1 (amended): `pushMetrics` makes exactly one call of `http.Post`; its URL
argument is the plain concatenation of the gateway URL, `/metrics/job/`, the
metric name, `/instance/` and the instance, its content type is `text/plain` and
its body is the payload.  Every POST request written for this call carries that
content type and body; none is written when the concatenated URL has no question
mark and an invalid percent escape, and otherwise the requests are those the
network writes for that URL.  The last part is the call of the specification's
scenario. -/
theorem pushMetrics_single_call (net : Net) (metricName pushgatewayURL instanceName : String)
    (metrics : Bytes) :
    postCalls (pushMetrics net metricName pushgatewayURL instanceName metrics)
      = [(pushgatewayURL ++ "/metrics/job/" ++ metricName ++ "/instance/" ++ instanceName,
          "text/plain", metrics)] ∧
    (∀ r ∈ postRequests (pushMetrics net metricName pushgatewayURL instanceName metrics),
      r.2.1 = "text/plain" ∧ r.2.2 = metrics) ∧
    ('?' ∉ (pushgatewayURL ++ "/metrics/job/" ++ metricName ++ "/instance/" ++ instanceName).data →
      badEscape
        (pushgatewayURL ++ "/metrics/job/" ++ metricName ++ "/instance/" ++ instanceName).data
        = true →
      postRequests (pushMetrics net metricName pushgatewayURL instanceName metrics) = []) ∧
    (¬ ('?' ∉ (pushgatewayURL ++ "/metrics/job/" ++ metricName ++ "/instance/" ++ instanceName).data ∧
        badEscape
          (pushgatewayURL ++ "/metrics/job/" ++ metricName ++ "/instance/" ++ instanceName).data
          = true) →
      postRequests (pushMetrics net metricName pushgatewayURL instanceName metrics)
        = (net.Post
            (pushgatewayURL ++ "/metrics/job/" ++ metricName ++ "/instance/" ++ instanceName)
            "text/plain" metrics).targets.map (fun target => (target, "text/plain", metrics))) ∧
    postCalls (pushMetrics net "node" "http://gw:9091" "host-1" payloadUp)
      = [("http://gw:9091/metrics/job/node/instance/host-1", "text/plain", payloadUp)] := by
  have hbad : '?' ∉ (postURL metricName pushgatewayURL instanceName).data →
      badEscape (postURL metricName pushgatewayURL instanceName).data = true →
      postRequests (pushMetrics net metricName pushgatewayURL instanceName metrics) = [] := by
    intro hq hb
    rw [postRequests_pushMetrics]
    simp [httpPost, hq, hb, postRequests]
  have hgood : ¬ ('?' ∉ (postURL metricName pushgatewayURL instanceName).data ∧
        badEscape (postURL metricName pushgatewayURL instanceName).data = true) →
      postRequests (pushMetrics net metricName pushgatewayURL instanceName metrics)
        = (net.Post (postURL metricName pushgatewayURL instanceName) "text/plain"
            metrics).targets.map (fun target => (target, "text/plain", metrics)) := by
    intro hn
    rw [postRequests_pushMetrics]
    simp only [httpPost, if_neg hn]
    exact postRequests_wire _ _ _
  refine ⟨postCalls_pushMetrics net metricName pushgatewayURL instanceName metrics, ?_,
    hbad, hgood, ?_⟩
  · intro r hr
    by_cases hn : '?' ∉ (postURL metricName pushgatewayURL instanceName).data ∧
        badEscape (postURL metricName pushgatewayURL instanceName).data = true
    · rw [hbad hn.1 hn.2] at hr
      exact absurd hr (List.not_mem_nil r)
    · rw [hgood hn] at hr
      obtain ⟨t, -, rfl⟩ := List.mem_map.1 hr
      exact ⟨rfl, rfl⟩
  · rw [postCalls_pushMetrics]
    decide

/-- Witness of C1: for the name `a%zz` no request is written; for the scenario
of the specification the one call has the target of the scenario. -/
theorem pushMetrics_single_call_witness :
    postRequests (pushMetrics (netOk payloadUp) "a%zz" "http://gw:9091" "host-1" payloadUp)
      = [] ∧
    postCalls (pushMetrics (netOk payloadUp) "node" "http://gw:9091" "host-1" payloadUp)
      = [("http://gw:9091/metrics/job/node/instance/host-1", "text/plain", payloadUp)] :=
  ⟨(pushMetrics_single_call (netOk payloadUp) "a%zz" "http://gw:9091" "host-1" payloadUp).2.2.1
      (by decide) (by decide),
   (pushMetrics_single_call (netOk payloadUp) "node" "http://gw:9091" "host-1"
      payloadUp).2.2.2.2⟩

/-- C2: `getAndPush` makes no push when `getMetrics` fails, be it on the GET or
on reading the body, and exactly one push, with the same name, gateway URL and
instance and with the fetched body as payload, when `getMetrics` yields a body. -/
theorem getAndPush_push_iff_fetched (net : Net)
    (metricName metricURL pushgatewayURL instanceName : String) :
    (∀ err, net.Get metricURL = .error err → (getMetrics net metricURL).1 = none) ∧
    (∀ body err, net.Get metricURL = .ok (body, some err) →
      (getMetrics net metricURL).1 = none) ∧
    ((getMetrics net metricURL).1 = none →
      getAndPush net metricName metricURL pushgatewayURL instanceName
        = (getMetrics net metricURL).2 ∧
      postCalls (getAndPush net metricName metricURL pushgatewayURL instanceName) = [] ∧
      postRequests (getAndPush net metricName metricURL pushgatewayURL instanceName) = []) ∧
    (∀ b, (getMetrics net metricURL).1 = some b →
      getAndPush net metricName metricURL pushgatewayURL instanceName
        = (getMetrics net metricURL).2
          ++ pushMetrics net metricName pushgatewayURL instanceName b ∧
      postCalls (getAndPush net metricName metricURL pushgatewayURL instanceName)
        = [(pushgatewayURL ++ "/metrics/job/" ++ metricName ++ "/instance/" ++ instanceName,
            "text/plain", b)]) := by
  refine ⟨?_, ?_, ?_, ?_⟩
  · intro err h
    simp [getMetrics, h]
  · intro body err h
    simp [getMetrics, h]
  · intro h
    have e := getAndPush_eq net metricName metricURL pushgatewayURL instanceName
    rw [h] at e
    exact ⟨e, by rw [e]; exact postCalls_getMetrics net metricURL,
      by rw [e]; exact postRequests_getMetrics net metricURL⟩
  · intro b h
    have e := getAndPush_eq net metricName metricURL pushgatewayURL instanceName
    rw [h] at e
    refine ⟨e, ?_⟩
    rw [e, postCalls_append, postCalls_getMetrics, postCalls_pushMetrics]
    rfl

/-- Witness of C2: an unreachable source and a body that cannot be read give no
push, a source answering `up 1` gives the one push of the specification's
scenario. -/
theorem getAndPush_push_iff_fetched_witness :
    postCalls (getAndPush netDown "node" "http://localhost:9100/metrics" "http://gw:9091" "host-1")
      = [] ∧
    postCalls (getAndPush netReadError "node" "http://localhost:9100/metrics" "http://gw:9091"
      "host-1") = [] ∧
    postCalls (getAndPush (netOk payloadUp) "node" "http://localhost:9100/metrics" "http://gw:9091"
      "host-1")
      = [("http://gw:9091" ++ "/metrics/job/" ++ "node" ++ "/instance/" ++ "host-1",
          "text/plain", payloadUp)] :=
  ⟨((getAndPush_push_iff_fetched netDown "node" "http://localhost:9100/metrics"
      "http://gw:9091" "host-1").2.2.1
      ((getAndPush_push_iff_fetched netDown "node" "http://localhost:9100/metrics"
        "http://gw:9091" "host-1").1 "connection refused" rfl)).2.1,
   ((getAndPush_push_iff_fetched netReadError "node" "http://localhost:9100/metrics"
      "http://gw:9091" "host-1").2.2.1
      ((getAndPush_push_iff_fetched netReadError "node" "http://localhost:9100/metrics"
        "http://gw:9091" "host-1").2.1 (some [117, 112]) "unexpected EOF" rfl)).2.1,
   ((getAndPush_push_iff_fetched (netOk payloadUp) "node" "http://localhost:9100/metrics"
      "http://gw:9091" "host-1").2.2.2 payloadUp (by decide)).2⟩

/-- C3 (failing input): a metric section that defines `host = "example.com"`
next to `port = 9100` does not yield the source
`http://example.com:9100/metrics`; the `switch` runs the `host` case only, the
port stays 0 and `parseConfig` ends in `logger.Fatal`. -/
theorem parseConfig_host_and_port_fatal :
    (tomlHostPort.get "node.port").IsValue = true ∧
    (tomlHostPort.get "node.port").asInteger = 9100 ∧
    metricFields tomlHostPort "node" = ⟨"example.com", "/metrics", "http", 0, false⟩ ∧
    parseConfig fsFile (loadConst tomlHostPort) "c.toml"
      = .fatal [⟨.fatal, "Port is not defined", ["config_section", "node"]⟩] := by
  decide

/-- C4 (counterexample): with `push_interval = 9223372037` the product with
`time.Second` overflows `int64`, and the returned interval is negative instead of
9223372037 seconds. -/
theorem parseConfig_interval_overflow :
    parseConfig fsFile (loadConst tomlHugeInterval) "c.toml"
      = .returned ⟨"http://localhost:9091", -9223372036709551616,
          [⟨"node", "http://localhost:9100/metrics"⟩]⟩ none [] ∧
    (-9223372036709551616 : Int) ≠ 9223372037 * Second := by
  decide

/-- C4 (amended): for a single configuration file whose `config` section defines only
`push_interval = n` with `-9223372036 ≤ n ≤ 9223372036` and whose only other
section `s` defines only `port = p`, `p` non-zero, `parseConfig` returns without
error the gateway default, an interval of `n` seconds and the one source
`s` at `http://localhost:p/metrics`. -/
theorem parseConfig_single_source (fs : String → PathInfo)
    (LoadFile : String → Except String Toml) (path file : String) (tomlFile : Toml)
    (s : String) (n p : Int)
    (hfs : getConfigFiles fs path = .ok [file]) (hload : LoadFile file = .ok tomlFile)
    (htables : tomlFile.TableNames = ["config", s] ∨ tomlFile.TableNames = [s, "config"])
    (hs : s ≠ "config")
    (hurl : (tomlFile.get "config.pushgateway_url").IsValue = false)
    (hint : (tomlFile.get "config.push_interval").IsValue = true)
    (hn : (tomlFile.get "config.push_interval").asInt = n)
    (hhost : (tomlFile.get (s ++ ".host")).IsValue = false)
    (hpath : (tomlFile.get (s ++ ".path")).IsValue = false)
    (hssl : (tomlFile.get (s ++ ".ssl")).IsValue = false)
    (hport : (tomlFile.get (s ++ ".port")).IsValue = true)
    (hp : (tomlFile.get (s ++ ".port")).asInteger = p)
    (hp0 : p ≠ 0) (hlo : -9223372036 ≤ n) (hhi : n ≤ 9223372036) :
    parseConfig fs LoadFile path
      = .returned ⟨"http://localhost:9091", n * Second,
          [⟨s, "http://localhost:" ++ fmtD p ++ "/metrics"⟩]⟩ none [] := by
  have hf : metricFields tomlFile s = ⟨"localhost", "/metrics", "http", p, false⟩ := by
    simp [metricFields, hhost, hpath, hssl, hport, hp]
  have hu := sourceURL_default p
  have hm := mulInt64_second n hlo hhi
  rcases htables with ht | ht <;>
    simp [parseConfig, hfs, filesLoop, hload, ht, tablesLoop, sectionStep,
      hs, hurl, hint, hn, hf, hp0, hu, hm, defaultConf]

/-- Witness of C4: the scenario `{config: {push_interval: 5}, node: {port: 9100}}`. -/
theorem parseConfig_single_source_witness :
    parseConfig fsFile (loadConst tomlNode) "c.toml"
      = .returned ⟨"http://localhost:9091", 5 * Second,
          [⟨"node", "http://localhost:" ++ fmtD 9100 ++ "/metrics"⟩]⟩ none [] :=
  parseConfig_single_source fsFile (loadConst tomlNode) "c.toml" "c.toml" tomlNode "node" 5 9100
    rfl rfl (Or.inl rfl) (by decide) (by decide) (by decide) (by decide) (by decide)
    (by decide) (by decide) (by decide) (by decide) (by decide) (by decide) (by decide)

/-- C5: when some section other than `config` of a loaded file has no `port`
field, `parseConfig` ends in `logger.Fatal` and returns no configuration, and
`main` stops before the scheduler loop, whatever the number of ticks. -/
theorem parseConfig_missing_port_fatal (fs : String → PathInfo)
    (LoadFile : String → Except String Toml) (path : String) (tomlFile : Toml) (metric : String)
    (hf : tomlFile ∈ loaded fs LoadFile path) (hm : metric ∈ tomlFile.TableNames)
    (hc : metric ≠ "config")
    (hp : (tomlFile.get (metric ++ ".port")).IsValue = false) :
    ∃ log, parseConfig fs LoadFile path = .fatal log ∧
      (∀ conf err log1, parseConfig fs LoadFile path ≠ .returned conf err log1) ∧
      ∀ hostname nets ticks, main fs LoadFile path hostname nets ticks = .terminated log := by
  obtain ⟨log, h⟩ := parseConfig_fatal_of_port_zero fs LoadFile path tomlFile metric hf
    ((mem_metricSections tomlFile metric).2 ⟨hm, hc⟩)
    (metricFields_port_eq_zero_of_absent tomlFile metric hp)
  refine ⟨log, h, ?_, ?_⟩
  · intro conf err log1 h1
    rw [h] at h1
    exact ParseResult.noConfusion h1
  · intro hostname nets ticks
    simp [main, h]

/-- Witness of C5: a single file whose section `node` has no port. -/
theorem parseConfig_missing_port_fatal_witness :
    ∃ log, parseConfig fsFile (loadConst tomlNoPort) "c.toml" = .fatal log ∧
      (∀ conf err log1,
        parseConfig fsFile (loadConst tomlNoPort) "c.toml" ≠ .returned conf err log1) ∧
      ∀ hostname nets ticks,
        main fsFile (loadConst tomlNoPort) "c.toml" hostname nets ticks = .terminated log :=
  parseConfig_missing_port_fatal fsFile (loadConst tomlNoPort) "c.toml" tomlNoPort "node"
    (by decide) (by decide) (by decide) (by decide)

/-- C8 (counterexample): two files both set `config.pushgateway_url`; the
returned gateway URL is the one of the file loaded second, not of the first. -/
theorem parseConfig_second_file_overrides :
    getConfigFiles fsTwo "conf.d" = .ok ["conf.d/a.toml", "conf.d/b.toml"] ∧
    parseConfig fsTwo (loadTwo (tomlGateway "http://first:9091") (tomlGateway "http://second:9091"))
        "conf.d"
      = .returned ⟨"http://second:9091", 60000000000, []⟩ none [] ∧
    (pusherConfig.mk "http://second:9091" 60000000000 []).PushGatewayURL ≠ "http://first:9091" :=
  ⟨rfl, by decide, by decide⟩

/-- C8 (amended): when two configuration files are loaded in order, a
`config.pushgateway_url` defined in the `config` section of the second file is
the returned gateway URL, and a `config.push_interval` defined there (in a
`config` section without `pushgateway_url`) gives the returned interval,
whatever the first file defines: the file loaded last wins. -/
theorem parseConfig_last_file_wins (fs : String → PathInfo)
    (LoadFile : String → Except String Toml) (path : String) (file1 file2 : String)
    (toml1 toml2 : Toml) (conf : pusherConfig) (err : Option String) (log : List LogEntry)
    (hfiles : getConfigFiles fs path = .ok [file1, file2])
    (h1 : LoadFile file1 = .ok toml1) (h2 : LoadFile file2 = .ok toml2)
    (h : parseConfig fs LoadFile path = .returned conf err log) :
    ("config" ∈ toml2.TableNames → (toml2.get "config.pushgateway_url").IsValue = true →
      conf.PushGatewayURL = (toml2.get "config.pushgateway_url").asString) ∧
    ("config" ∈ toml2.TableNames → (toml2.get "config.pushgateway_url").IsValue = false →
      (toml2.get "config.push_interval").IsValue = true →
      conf.PushInterval = mulInt64 (toml2.get "config.push_interval").asInt Second) := by
  obtain ⟨-, -, hu, hi⟩ := parseConfig_returned fs LoadFile path conf err log h
  have hl : loaded fs LoadFile path = [toml1, toml2] := by
    simp [loaded, configFiles, hfiles, loadedFiles, h1, h2]
  rw [hl] at hu hi
  constructor
  · intro hc hv
    rw [hu]
    simp [lastGatewayRead, gatewayRead, hc, hv]
  · intro hc hv hw
    rw [hi]
    simp [lastIntervalRead, intervalRead, hc, hv, hw]

/-- Witness of C8: the second file's gateway URL, and the second file's
interval, are the returned ones. -/
theorem parseConfig_last_file_wins_witness :
    (pusherConfig.mk "http://second:9091" 60000000000 []).PushGatewayURL
      = ((tomlGateway "http://second:9091").get "config.pushgateway_url").asString ∧
    (pusherConfig.mk "http://localhost:9091" 7000000000 []).PushInterval
      = mulInt64 ((tomlInterval 7).get "config.push_interval").asInt Second :=
  ⟨(parseConfig_last_file_wins fsTwo
      (loadTwo (tomlGateway "http://first:9091") (tomlGateway "http://second:9091")) "conf.d"
      "conf.d/a.toml" "conf.d/b.toml" (tomlGateway "http://first:9091")
      (tomlGateway "http://second:9091") ⟨"http://second:9091", 60000000000, []⟩ none []
      rfl rfl rfl (by decide)).1 (by decide) (by decide),
   (parseConfig_last_file_wins fsTwo (loadTwo (tomlInterval 3) (tomlInterval 7)) "conf.d"
      "conf.d/a.toml" "conf.d/b.toml" (tomlInterval 3) (tomlInterval 7)
      ⟨"http://localhost:9091", 7000000000, []⟩ none []
      rfl rfl rfl (by decide)).2 (by decide) (by decide) (by decide)⟩

/-- C9: the names of the returned metric sources are, in order and with
multiplicity, the table names of the loaded files (files in load order, names
in the order of `TableNames`) without the occurrences of `config`; no metric
source is named `config`. -/
theorem parseConfig_metric_names (fs : String → PathInfo)
    (LoadFile : String → Except String Toml) (path : String) (conf : pusherConfig)
    (err : Option String) (log : List LogEntry)
    (h : parseConfig fs LoadFile path = .returned conf err log) :
    conf.Metrics.map (fun metric => metric.Name)
      = (loaded fs LoadFile path).flatMap
          (fun tomlFile => tomlFile.TableNames.filter (fun name => name ≠ "config")) ∧
    ∀ metric ∈ conf.Metrics, metric.Name ≠ "config" := by
  have hm := (parseConfig_returned fs LoadFile path conf err log h).1
  have hnames : conf.Metrics.map (fun metric => metric.Name)
      = (loaded fs LoadFile path).flatMap
          (fun tomlFile => tomlFile.TableNames.filter (fun name => name ≠ "config")) := by
    rw [hm, List.map_flatMap]
    congr 1
    funext tomlFile
    simp [fileSources, metricSections, sectionSource, Function.comp_def]
  refine ⟨hnames, ?_⟩
  intro metric hmem
  have : metric.Name ∈ conf.Metrics.map (fun metric => metric.Name) :=
    List.mem_map.2 ⟨metric, hmem, rfl⟩
  rw [hnames] at this
  simp only [List.mem_flatMap, List.mem_filter, decide_eq_true_eq] at this
  obtain ⟨_, _, _, hne⟩ := this
  exact hne

/-- Witness of C9: the file `{config: {push_interval: 5}, node: {port: 9100}}`
yields the names `[node]`. -/
theorem parseConfig_metric_names_witness :
    [metricConfig.mk "node" "http://localhost:9100/metrics"].map (fun metric => metric.Name)
      = (loaded fsFile (loadConst tomlNode) "c.toml").flatMap
          (fun tomlFile => tomlFile.TableNames.filter (fun name => name ≠ "config")) ∧
    ∀ metric ∈ [metricConfig.mk "node" "http://localhost:9100/metrics"],
      metric.Name ≠ "config" :=
  parseConfig_metric_names fsFile (loadConst tomlNode) "c.toml"
    ⟨"http://localhost:9091", 5000000000, [⟨"node", "http://localhost:9100/metrics"⟩]⟩
    none [] (by decide)

/-- C10: after `ticks` ticks the scheduler loop has started exactly
`ticks * M` relay tasks for `M` metric sources: on every tick one per source, in
order, with that source's name and URL, the gateway URL and the instance; each
started task runs `getAndPush` on those arguments, and the tasks started do not
depend on what any task meets on the network. -/
theorem schedulerLoop_starts_all (nets : Nat → Nat → Net) (pusher : pusherConfig)
    (hostname : String) (ticks : Nat) :
    (schedulerLoop nets pusher hostname ticks).map Prod.fst
      = (List.replicate ticks (pusher.Metrics.map
          (fun metric => Task.mk metric.Name metric.URL pusher.PushGatewayURL hostname))).flatten ∧
    (schedulerLoop nets pusher hostname ticks).length = ticks * pusher.Metrics.length ∧
    (∀ e ∈ schedulerLoop nets pusher hostname ticks, ∃ net,
      e.2 = getAndPush net e.1.metricName e.1.metricURL e.1.pushgatewayURL e.1.instanceName) ∧
    (∀ nets2 : Nat → Nat → Net,
      (schedulerLoop nets2 pusher hostname ticks).map Prod.fst
        = (schedulerLoop nets pusher hostname ticks).map Prod.fst) := by
  refine ⟨schedulerLoop_map_fst nets pusher hostname ticks, ?_, ?_, ?_⟩
  · have h := congrArg List.length (schedulerLoop_map_fst nets pusher hostname ticks)
    simpa using h
  · induction ticks with
    | zero => intro e he; simp [schedulerLoop] at he
    | succ t ih =>
      intro e he
      simp only [schedulerLoop, List.mem_append] at he
      rcases he with he | he
      · exact ih e he
      · exact tickBody_events (nets t) pusher hostname pusher.Metrics 0 e he
  · intro nets2
    rw [schedulerLoop_map_fst, schedulerLoop_map_fst]

/-- Witness of C10: two metric sources and three ticks give six started tasks,
the same ones whether every fetch fails or every fetch succeeds. -/
theorem schedulerLoop_starts_all_witness :
    (schedulerLoop (fun _ _ => netDown) pusherTwo "host-1" 3).length
      = 3 * pusherTwo.Metrics.length ∧
    (schedulerLoop (fun _ _ => netOk payloadUp) pusherTwo "host-1" 3).map Prod.fst
      = (schedulerLoop (fun _ _ => netDown) pusherTwo "host-1" 3).map Prod.fst :=
  ⟨(schedulerLoop_starts_all (fun _ _ => netDown) pusherTwo "host-1" 3).2.1,
   (schedulerLoop_starts_all (fun _ _ => netDown) pusherTwo "host-1" 3).2.2.2
      (fun _ _ => netOk payloadUp)⟩

end PrometheusPusher
